import Mathlib

/-!
# Verification of the paygate transfer pipeline against its specification

A shallow embedding of the cutoff / effective-entry-date arithmetic
(`pkg/fundflow`, embedded in `src/pkg/database/mysql.go`), the first-party
origination checks (`FirstParty.Originate`), the SQL transfer repository
(`src/pkg/transfers/repository.go`), and the outbound ACH filename sequence
helpers, together with proofs of the specified properties.

Conventions of the embedding:
* Go strings are compared bytewise; we embed that order as a structural
  comparison over `List Char` (`charListLt`), which agrees with Go's `<`
  on the ASCII data appearing here (`HH:MM` windows, filenames, statuses).
* Wall-clock instants carry a calendar-day index and a minute-of-day
  (`BankTime`); `day % 7 = 5` is Saturday and `day % 7 = 6` Sunday, so day 0
  is a Monday.  Timezone localization is implicit: all `BankTime` values are
  already in the cutoff timezone, mirroring `ss.Now().In(cfg.Cutoffs.Location())`.
* MySQL string comparison on status columns uses a case-insensitive
  collation (the DSN selects utf8mb4 defaults), so SQL `status = ?` is
  embedded as a case fold, in agreement with the Go-side `strings.EqualFold`.
* Database timestamps are minutes on an integer timeline (`Int`); a calendar
  day is 1440 of them.
-/

namespace Paygate

/-! ## Go string order

`charListLt` is Go's `<` on strings: lexicographic, comparing character
values; `goStrLe a b` is Go's `a <= b`, i.e. `!(b < a)`. -/

def charListLt : List Char → List Char → Bool
  | [], [] => false
  | [], _ :: _ => true
  | _ :: _, [] => false
  | a :: as, b :: bs =>
    if a.toNat < b.toNat then true
    else if b.toNat < a.toNat then false
    else charListLt as bs

def goStrLt (a b : String) : Bool :=
  charListLt a.data b.data

def goStrLe (a b : String) : Bool :=
  !(goStrLt b a)

/-! ## Wall-clock model -/

/-- An instant in the cutoff timezone: a calendar-day index plus the
minute of that day (`0 ≤ minute < 1440` for real instants).  Day 0 is a
Monday, so weekends are the residues 5 and 6 mod 7. -/
structure BankTime where
  day : Nat
  minute : Nat
deriving DecidableEq, Repr

/-- Two decimal digits, zero padded, as Go's `%02d` renders them. -/
def pad2 (n : Nat) : List Char :=
  [Nat.digitChar (n / 10), Nat.digitChar (n % 10)]

/-- Go's `when.Format("15:04")`: the minute-of-day rendered `"HH:MM"`. -/
def format1504 (minute : Nat) : String :=
  ⟨pad2 (minute / 60) ++ ':' :: pad2 (minute % 60)⟩

/-! ## Banking days (moov-io/base `Time.AddBankingDay`)

Modelled from the spec: `moov-io/base`'s banking-day arithmetic is not part
of this repository's sources.  Per the spec's glossary, a banking day is any
day excluding weekends and a configured holiday set, and adding `n` banking
days lands on the first banking day at least `n` calendar days ahead,
preserving the time of day.  The forward scan is given explicit fuel large
enough to always find a banking day (at most `hol.length` non-weekend days
can be holidays). -/

def isWeekend (day : Nat) : Bool :=
  day % 7 == 5 || day % 7 == 6

def isBankingDay (hol : List Nat) (day : Nat) : Bool :=
  !isWeekend day && !(hol.contains day)

/-- First banking day `≥ day`, scanning forward with fuel. -/
def nextBankingDayFrom (hol : List Nat) : Nat → Nat → Nat
  | 0, day => day
  | fuel + 1, day =>
    if isBankingDay hol day then day else nextBankingDayFrom hol fuel (day + 1)

def bankingFuel (hol : List Nat) : Nat :=
  7 * (hol.length + 1)

/-- `t.AddBankingDay(n)`: move `n` calendar days ahead, then roll forward to
a banking day.  The time of day is preserved. -/
def addBankingDay (hol : List Nat) (n : Nat) (t : BankTime) : BankTime :=
  { t with day := nextBankingDayFrom hol (bankingFuel hol) (t.day + n) }

/-! ## ODFI configuration (pkg/config, fields used by the embedded code) -/

structure Cutoffs where
  timezone : String
  windows : List String
deriving DecidableEq, Repr

structure FileConfig where
  balanceEntries : Bool
deriving DecidableEq, Repr

structure ODFI where
  routingNumber : String
  cutoffs : Cutoffs
  fileConfig : FileConfig
deriving DecidableEq, Repr

/-! ## Cutoff arithmetic (`afterCutoffWindows`, `calculateEffectiveEntryDate`
from `src/pkg/database/mysql.go` lines 545-580) -/

/-- `afterCutoffWindows(cfg, when)`: sort the configured `HH:MM` windows as
strings ascending and compare `when.Format("15:04")` against the last one;
`false` when no windows are configured. -/
def afterCutoffWindows (cfg : Cutoffs) (when : BankTime) : Bool :=
  if cfg.windows.isEmpty then false
  else
    let windows := cfg.windows.mergeSort goStrLe
    if windows.isEmpty then false
    else goStrLe (windows.getLastD "") (format1504 when.minute)

/-- `calculateEffectiveEntryDate(cfg, ss, sameDay)` with `now = ss.Now()`
already localized into the cutoff timezone. -/
def calculateEffectiveEntryDate (cfg : ODFI) (hol : List Nat) (now : BankTime)
    (sameDay : Bool) : BankTime :=
  let when := now
  let afterCutoffs := afterCutoffWindows cfg.cutoffs when
  if afterCutoffs then
    if sameDay then addBankingDay hol 1 when
    else addBankingDay hol 2 when
  else
    if sameDay then when
    else addBankingDay hol 1 when

/-! ## Case-insensitive string equality (Go `strings.EqualFold`, restricted
to ASCII, which covers every status value appearing in the system) -/

def foldChar (c : Char) : Char :=
  if 65 ≤ c.toNat ∧ c.toNat ≤ 90 then Char.ofNat (c.toNat + 32) else c

def equalFold (a b : String) : Bool :=
  a.data.map foldChar == b.data.map foldChar

/-! ## Client data model (pkg/client, fields used by the embedded code) -/

structure Amount where
  currency : String
  value : Int
deriving DecidableEq, Repr

/-- One side of a transfer as stored with it (customer and account IDs). -/
structure CustomerEndpoint where
  customerID : String
  accountID : String
deriving DecidableEq, Repr

/-- `client.Transfer`. -/
structure Transfer where
  transferID : String
  amount : Amount
  source : CustomerEndpoint
  destination : CustomerEndpoint
  description : String
  status : String
  sameDay : Bool
  returnCode : Option String
  processedAt : Option Int
  created : Int
  traceNumbers : List String
deriving DecidableEq, Repr

/-- Transfer status written by the API on creation and demanded by
`deleteUserTransfer` (`client.PENDING`); all status comparisons in the
embedded code are case folded. -/
def PENDING : String := "pending"

/-- Status of transfers included in an uploaded file (`client.PROCESSED`). -/
def PROCESSED : String := "processed"

/-- `customers.CUSTOMERSTATUS_VERIFIED`; compared case insensitively. -/
def CUSTOMERSTATUS_VERIFIED : String := "verified"

/-! ## Fund-flow endpoints (pkg/fundflow `Source` / `Destination`) -/

structure Customer where
  customerID : String
  status : String
deriving DecidableEq, Repr

structure Account where
  routingNumber : String
deriving DecidableEq, Repr

structure Source where
  customer : Customer
  account : Account
  accountNumber : String
deriving DecidableEq, Repr

structure Destination where
  customer : Customer
  account : Account
  accountNumber : String
deriving DecidableEq, Repr

/-! ## ACH file construction (pkg/achx) -/

structure ACHEntry where
  traceNumber : String
  amountValue : Int
  isOffset : Bool
deriving DecidableEq, Repr

structure ACHFile where
  entries : List ACHEntry
deriving DecidableEq, Repr

/-- `achx.Options` (the fields `FirstParty.Originate` populates). -/
structure Options where
  odfiRoutingNumber : String
  effectiveEntryDate : BankTime
  companyIdentification : String
  balanceEntries : Bool
deriving DecidableEq, Repr

/-- Modelled from the spec: a NACHA trace number `<first-8-of-ODFI-routing><seq>`
with a per-file counter (spec section 4.1 (vi)); `achx` is not under `src/`. -/
def achTraceNumber (odfiRoutingNumber : String) (seq : Nat) : String :=
  ⟨odfiRoutingNumber.data.take 8 ++ pad2 seq⟩

/-- Modelled from the spec: `achx.ConstructFile` is not under `src/`.  Per
spec section 4.1 (iii)-(vi), the file holds one batch with one entry detail for
the transfer, plus, exactly when `balanceEntries` is enabled in the options, a
second offsetting entry; every entry gets its own trace number. -/
def ConstructFile (transferID : String) (opts : Options) (xfer : Transfer)
    (src : Source) (dst : Destination) : ACHFile :=
  let entry : ACHEntry :=
    { traceNumber := achTraceNumber opts.odfiRoutingNumber 1
      amountValue := xfer.amount.value
      isOffset := false }
  if opts.balanceEntries then
    { entries := [entry,
        { traceNumber := achTraceNumber opts.odfiRoutingNumber 2
          amountValue := xfer.amount.value
          isOffset := true }] }
  else
    { entries := [entry] }

/-- The three rejection sites of `FirstParty.Originate`
(`src/pkg/database/mysql.go` lines 492-518), by the spec's names:
`endpointRejected` is "rejecting transfer between two accounts within ...",
`thirdPartyRejected` is "rejecting third-party transfer between FI's we don't
represent ...", and `debitNotAllowed` is "... does not support debit with
status ...". -/
inductive OriginateError where
  | endpointRejected
  | thirdPartyRejected
  | debitNotAllowed
deriving DecidableEq, Repr

/-- `FirstParty.Originate` (`src/pkg/database/mysql.go` lines 492-539).
`hol` and `now` stand for the strategy's time service; `xfer` must be the
non-nil transfer. -/
def Originate (cfg : ODFI) (hol : List Nat) (now : BankTime) (companyID : String)
    (xfer : Transfer) (src : Source) (dst : Destination) :
    Except OriginateError (List ACHFile) :=
  if src.account.routingNumber = dst.account.routingNumber then
    .error .endpointRejected
  else if src.account.routingNumber ≠ cfg.routingNumber ∧
      dst.account.routingNumber ≠ cfg.routingNumber then
    .error .thirdPartyRejected
  else if cfg.routingNumber = dst.account.routingNumber ∧
      equalFold src.customer.status CUSTOMERSTATUS_VERIFIED = false then
    .error .debitNotAllowed
  else
    let opts : Options :=
      { odfiRoutingNumber := cfg.routingNumber
        effectiveEntryDate := calculateEffectiveEntryDate cfg hol now xfer.sameDay
        companyIdentification := companyID
        balanceEntries := cfg.fileConfig.balanceEntries && decide (50 ≤ xfer.amount.value) }
    .ok [ConstructFile xfer.transferID opts xfer src dst]

/-! ## Outbound filename sequence helpers (pkg/upload)

Modelled from the spec: only the tests of `RoundSequenceNumber`,
`RenderACHFilename` and `ACHFilenameSeq` are under `src/`
(`src/unnamed/part_001`).  Per spec sections 4.5 step 6 and 6, sequence
numbers are a single base-36 digit (`0-9` then `A-Z`), filenames follow
`date-time-routing-seq.ach[.gpg]`, and `ACHFilenameSeq`
recovers the sequence digit from such a name. -/

/-- Modelled from the spec: render a sequence number `0-35` as its single
base-36 digit character. -/
def RoundSequenceNumber (n : Nat) : String :=
  if n < 10 then ⟨[Nat.digitChar n]⟩ else ⟨[Char.ofNat (65 + (n - 10))]⟩

/-- Value of a single base-36 sequence digit, if the character is one. -/
def seqCharValue (c : Char) : Option Nat :=
  if 48 ≤ c.toNat ∧ c.toNat ≤ 57 then some (c.toNat - 48)
  else if 65 ≤ c.toNat ∧ c.toNat ≤ 90 then some (c.toNat - 65 + 10)
  else none

/-- Drop the `.ach` / `.ach.gpg` extension: keep everything before the
first dot. -/
def stripACHExt (cs : List Char) : List Char :=
  cs.takeWhile (fun c => c ≠ '.')

/-- Split on dashes (`acc` holds the current segment reversed). -/
def splitDash : List Char → List Char → List (List Char)
  | [], acc => [acc.reverse]
  | c :: rest, acc =>
    if c = '-' then acc.reverse :: splitDash rest []
    else splitDash rest (c :: acc)

/-- A dash-separated segment counts as the sequence digit only when it is a
single base-36 digit character. -/
def partSeqValue : List Char → Option Nat
  | [c] => seqCharValue c
  | _ => none

/-- Modelled from the spec: `ACHFilenameSeq` extracts the sequence number
from a rendered filename: the rightmost dash-separated segment (extension
stripped) that is a single base-36 digit; `0` when none is found. -/
def ACHFilenameSeq (filename : String) : Nat :=
  (((splitDash (stripACHExt filename.data) []).reverse).findSome? partSeqValue).getD 0

/-- Modelled from the spec: a filename rendered by the outbound template,
`date-time-routing-seq.ach[.gpg]` (spec sections 6 and 8, scenario 1). -/
def RenderACHFilename (date time routing : String) (seq : Nat) (gpg : Bool) : String :=
  date ++ "-" ++ time ++ "-" ++ routing ++ "-" ++ RoundSequenceNumber seq ++ ".ach" ++
    (if gpg then ".gpg" else "")

/-! ## Transfer repository (`src/pkg/transfers/repository.go`)

The database is a value (`DB`); each repository method is a function of it,
mutating methods returning the new database.  A rolled-back transaction
returns the database unchanged. -/

/-- A row of the `transfers` table (schema per the migrations in
`src/pkg/database/mysql.go`). -/
structure TransferRow where
  transferID : String
  organization : String
  amountCurrency : String
  amountValue : Int
  sourceCustomerID : String
  sourceAccountID : String
  destinationCustomerID : String
  destinationAccountID : String
  description : String
  status : String
  sameDay : Bool
  returnCode : Option String
  createdAt : Int
  lastUpdatedAt : Int
  processedAt : Option Int
  deletedAt : Option Int
  remoteAddress : String
deriving DecidableEq, Repr

/-- The tables touched by the embedded repository methods: `transfers` and
`transfer_trace_numbers` (pairs of transfer ID and trace number). -/
structure DB where
  transfers : List TransferRow
  traceNumbers : List (String × String)
deriving DecidableEq, Repr

/-- `getTraceNumbers`: all trace numbers recorded for a transfer, skipping
empty strings as the row scan does. -/
def getTraceNumbers (db : DB) (transferID : String) : List String :=
  (((db.traceNumbers.filter (fun p => p.1 == transferID)).map (fun p => p.2)).filter
    (fun s => s != ""))

/-- Row filter of `getUserTransfer`'s query:
`transfer_id = ? and organization = ? and deleted_at is null`. -/
def rowMatchesUser (transferID orgID : String) (r : TransferRow) : Bool :=
  r.transferID == transferID && r.organization == orgID && r.deletedAt == none

/-- `getUserTransfer`: read one visible transfer of an organization and
assemble the `client.Transfer` (trace numbers joined in).  The return code is
carried as the raw stored code; `ach.LookupReturnCode` only enriches it with
reason text. -/
def getUserTransfer (db : DB) (transferID orgID : String) : Option Transfer :=
  match db.transfers.find? (rowMatchesUser transferID orgID) with
  | none => none
  | some r =>
    if r.transferID == "" then none
    else
      some
        { transferID := r.transferID
          amount := { currency := r.amountCurrency, value := r.amountValue }
          source := { customerID := r.sourceCustomerID, accountID := r.sourceAccountID }
          destination :=
            { customerID := r.destinationCustomerID, accountID := r.destinationAccountID }
          description := r.description
          status := r.status
          sameDay := r.sameDay
          returnCode := r.returnCode
          processedAt := r.processedAt
          created := r.createdAt
          traceNumbers := getTraceNumbers db transferID }

/-- `GetTransfer`: resolve the organization of a visible transfer, then read
it with `getUserTransfer`. -/
def GetTransfer (db : DB) (transferID : String) : Option Transfer :=
  match db.transfers.find? (fun r => r.transferID == transferID && r.deletedAt == none) with
  | none => none
  | some r => getUserTransfer db transferID r.organization

/-- Row update of `UpdateTransferStatus`:
`update transfers set status = ? where transfer_id = ? and deleted_at is null`. -/
def updateTransferStatusRow (transferID status : String) (r : TransferRow) : TransferRow :=
  if r.transferID == transferID && r.deletedAt == none then { r with status := status }
  else r

/-- `UpdateTransferStatus`. -/
def UpdateTransferStatus (db : DB) (transferID status : String) : DB :=
  { db with transfers := db.transfers.map (updateTransferStatusRow transferID status) }

/-- Row update of `SaveReturnCode`: `update transfers set return_code = ?
where transfer_id = ? and return_code is null and deleted_at is null`. -/
def saveReturnCodeRow (transferID returnCode : String) (r : TransferRow) : TransferRow :=
  if r.transferID == transferID && r.returnCode == none && r.deletedAt == none then
    { r with returnCode := some returnCode }
  else r

/-- `SaveReturnCode`: the update succeeds whether or not any row matched. -/
def SaveReturnCode (db : DB) (transferID returnCode : String) :
    Except String Unit × DB :=
  (.ok (), { db with transfers := db.transfers.map (saveReturnCodeRow transferID returnCode) })

/-- Row update of `deleteUserTransfer`'s soft delete: `update transfers set
deleted_at = ? where transfer_id = ? and organization = ? and status = ? and
deleted_at is null` with status bound to `client.PENDING` (string equality
under the case-insensitive column collation). -/
def deleteUserTransferRow (orgID transferID : String) (now : Int) (r : TransferRow) :
    TransferRow :=
  if r.transferID == transferID && r.organization == orgID &&
      equalFold r.status PENDING && r.deletedAt == none then
    { r with deletedAt := some now }
  else r

/-- `deleteUserTransfer`: inside one transaction, read the status of the
visible row (`sql.ErrNoRows` commits nothing and returns success), reject
unless it case folds to PENDING, otherwise soft delete. -/
def deleteUserTransfer (db : DB) (orgID transferID : String) (now : Int) :
    Except String Unit × DB :=
  match db.transfers.find? (rowMatchesUser transferID orgID) with
  | none => (.ok (), db)
  | some r =>
    if equalFold r.status PENDING then
      (.ok (),
        { db with transfers := db.transfers.map (deleteUserTransferRow orgID transferID now) })
    else
      (.error "is not in PENDING status", db)

/-- `startOfDayAndTomorrow`: midnight of the given instant's day and midnight
of the next day (`Truncate(24h)` on the minute timeline). -/
def startOfDayAndTomorrow (t : Int) : Int × Int :=
  let start := t.fdiv 1440 * 1440
  (start, start + 1440)

/-- Row filter of `LookupTransferFromReturn`'s query, including the
`transfer_trace_numbers` join: `amount_value = ? and trace_number = ? and
status = ? and created_at > ? and created_at < ? and deleted_at is null`. -/
def lookupRowMatches (db : DB) (amountValue : Int) (traceNumber : String)
    (lo hi : Int) (r : TransferRow) : Bool :=
  r.amountValue == amountValue &&
  db.traceNumbers.any (fun p => p.1 == r.transferID && p.2 == traceNumber) &&
  equalFold r.status PROCESSED &&
  (decide (lo < r.createdAt) && decide (r.createdAt < hi)) &&
  r.deletedAt == none

/-- `LookupTransferFromReturn`: find one PROCESSED transfer carrying the
returned trace number and amount whose `created_at` lies within five calendar
days of the return's effective entry date, then read it. -/
def LookupTransferFromReturn (db : DB) (amount : Amount) (traceNumber : String)
    (effectiveEntryDate : Int) : Option Transfer :=
  let p := startOfDayAndTomorrow effectiveEntryDate
  let lo := p.1 - 5 * 1440
  let hi := p.2 + 5 * 1440
  match db.transfers.find? (lookupRowMatches db amount.value traceNumber lo hi) with
  | none => none
  | some r => getUserTransfer db r.transferID r.organization

/-- The primary-key constraint of the `transfers` table
(`transfer_id varchar(40) primary key`): no two rows share a transfer ID. -/
def uniqueTransferIDs (db : DB) : Prop :=
  (db.transfers.map (fun r => r.transferID)).Nodup

/-- `transferFilterParams` of `getTransfers`. -/
structure transferFilterParams where
  startDate : Int
  endDate : Int
  status : String
  customerIDs : List String
  count : Nat
  skip : Nat
deriving Repr

/-- Row filter of `getTransfers`' query: organization, creation window,
visibility, and the optional status and customer filters. -/
def getTransfersRowMatches (orgID : String) (params : transferFilterParams)
    (r : TransferRow) : Bool :=
  r.organization == orgID &&
  decide (params.startDate ≤ r.createdAt) && decide (r.createdAt ≤ params.endDate) &&
  r.deletedAt == none &&
  (params.status == "" || equalFold r.status params.status) &&
  (params.customerIDs.isEmpty || params.customerIDs.contains r.sourceCustomerID ||
    params.customerIDs.contains r.destinationCustomerID)

/-- `getTransfers`: filter, order by `created_at` descending, page with
`limit`/`offset`, then read each ID through `getUserTransfer`. -/
def getTransfers (db : DB) (orgID : String) (params : transferFilterParams) :
    List Transfer :=
  let rows := db.transfers.filter (getTransfersRowMatches orgID params)
  let sorted := rows.mergeSort (fun a b => decide (b.createdAt ≤ a.createdAt))
  let page := (sorted.drop params.skip).take params.count
  let transferIDs := (page.map (fun r => r.transferID)).filter (fun s => s != "")
  (transferIDs.filterMap (fun tid => getUserTransfer db tid orgID)).filter
    (fun t => t.transferID != "")



/-- C5: `Originate` returns an error and no file whenever the Source routing
number equals the Destination routing number (`endpointRejected`), and, when
they differ, whenever neither routing number equals the configured ODFI
routing number (`thirdPartyRejected`); the equal-routing check fires first,
so it takes precedence over the third-party check. -/
theorem Originate_routing_rejections (cfg : ODFI) (hol : List Nat) (now : BankTime)
    (companyID : String) (xfer : Transfer) (src : Source) (dst : Destination) :
    (src.account.routingNumber = dst.account.routingNumber →
      Originate cfg hol now companyID xfer src dst = .error .endpointRejected) ∧
    (src.account.routingNumber ≠ dst.account.routingNumber →
     src.account.routingNumber ≠ cfg.routingNumber →
     dst.account.routingNumber ≠ cfg.routingNumber →
      Originate cfg hol now companyID xfer src dst = .error .thirdPartyRejected) := by
  constructor
  · intro h
    simp [Originate, h]
  · intro h1 h2 h3
    simp [Originate, h1, h2, h3]

/-- C6: when the transfer would debit the Source (Destination at the ODFI)
and the Source customer's status is not VERIFIED under case-insensitive
comparison, `Originate` returns `debitNotAllowed` and no file; when instead
the Source is at the ODFI, origination succeeds with no customer-status
check regardless of the status value. -/
theorem Originate_debit_check (cfg : ODFI) (hol : List Nat) (now : BankTime)
    (companyID : String) (xfer : Transfer) (src : Source) (dst : Destination) :
    (cfg.routingNumber = dst.account.routingNumber →
     src.account.routingNumber ≠ dst.account.routingNumber →
     equalFold src.customer.status CUSTOMERSTATUS_VERIFIED = false →
      Originate cfg hol now companyID xfer src dst = .error .debitNotAllowed) ∧
    (src.account.routingNumber = cfg.routingNumber →
     dst.account.routingNumber ≠ cfg.routingNumber →
      ∃ f, Originate cfg hol now companyID xfer src dst = .ok [f]) := by
  constructor
  · intro h1 h2 h3
    simp [Originate, h1, h2, h3]
  · intro h1 h2
    have hne : src.account.routingNumber ≠ dst.account.routingNumber := by
      rw [h1]; exact fun hc => h2 hc.symm
    have hcfg : ¬(cfg.routingNumber = dst.account.routingNumber) := fun hc => h2 hc.symm
    exact ⟨_, by simp [Originate, hne, h1, hcfg]; rfl⟩

/-- C7: `Originate` enables balance (offset) entries exactly when the
`balanceEntries` configuration flag is set and the transfer amount is at
least 50 minor units; for a 25-cent transfer the built file holds a single
entry, no offset, and one trace number instead of two. -/
theorem Originate_balance_entries (cfg : ODFI) (hol : List Nat) (now : BankTime)
    (companyID : String) (xfer : Transfer) (src : Source) (dst : Destination)
    (hne : src.account.routingNumber ≠ dst.account.routingNumber)
    (hparty : src.account.routingNumber = cfg.routingNumber ∨
      dst.account.routingNumber = cfg.routingNumber)
    (hdebit : cfg.routingNumber = dst.account.routingNumber →
      equalFold src.customer.status CUSTOMERSTATUS_VERIFIED = true) :
    ∃ f, Originate cfg hol now companyID xfer src dst = .ok [f] ∧
      ((∃ e ∈ f.entries, e.isOffset = true) ↔
        (cfg.fileConfig.balanceEntries = true ∧ 50 ≤ xfer.amount.value)) ∧
      (xfer.amount.value = 25 →
        f.entries.length = 1 ∧ (∀ e ∈ f.entries, e.isOffset = false) ∧
        (f.entries.map (fun e => e.traceNumber)).length = 1) := by
  have hc2 : ¬(src.account.routingNumber ≠ cfg.routingNumber ∧
      dst.account.routingNumber ≠ cfg.routingNumber) := by
    rcases hparty with h | h
    · exact fun hc => hc.1 h
    · exact fun hc => hc.2 h
  have hc3 : ¬(cfg.routingNumber = dst.account.routingNumber ∧
      equalFold src.customer.status CUSTOMERSTATUS_VERIFIED = false) := by
    rintro ⟨ha, hb⟩
    rw [hdebit ha] at hb
    cases hb
  refine ⟨ConstructFile xfer.transferID
      { odfiRoutingNumber := cfg.routingNumber
        effectiveEntryDate := calculateEffectiveEntryDate cfg hol now xfer.sameDay
        companyIdentification := companyID
        balanceEntries := cfg.fileConfig.balanceEntries && decide (50 ≤ xfer.amount.value) }
      xfer src dst, ?_, ?_, ?_⟩
  · simp [Originate, hne, hc2, hc3]
  · cases hb : (cfg.fileConfig.balanceEntries && decide (50 ≤ xfer.amount.value)) with
    | true =>
      rw [Bool.and_eq_true, decide_eq_true_eq] at hb
      simp [ConstructFile, Bool.and_eq_true, decide_eq_true_eq, hb]
    | false =>
      have hb2 := hb
      rw [Bool.and_eq_false_iff] at hb2
      simp [ConstructFile, hb]
      intro hflag
      rcases hb2 with h | h
      · rw [hflag] at h; cases h
      · rw [decide_eq_false_iff_not] at h; omega
  · intro h25
    simp [ConstructFile, h25]


/-- C4: `SaveReturnCode` writes a return code only to a transfer whose
return code is currently null; a row whose return code is already set is
left unchanged by every call (a second return never overwrites the recorded
code), and the call returns success even when no row is updated. -/
theorem SaveReturnCode_write_once (db : DB) (transferID returnCode : String) :
    (SaveReturnCode db transferID returnCode).1 = .ok () ∧
    (SaveReturnCode db transferID returnCode).2.transfers =
      db.transfers.map (saveReturnCodeRow transferID returnCode) ∧
    (∀ r : TransferRow, r.returnCode.isSome = true →
      saveReturnCodeRow transferID returnCode r = r) ∧
    (∀ r : TransferRow, r.transferID = transferID → r.returnCode = none →
      r.deletedAt = none →
      saveReturnCodeRow transferID returnCode r = { r with returnCode := some returnCode }) := by
  refine ⟨rfl, rfl, ?_, ?_⟩
  · intro r h
    cases hrc : r.returnCode with
    | none => rw [hrc] at h; cases h
    | some v => simp [saveReturnCodeRow, hrc]
  · intro r h1 h2 h3
    simp [saveReturnCodeRow, h1, h2, h3]

theorem SaveReturnCode_write_once_witness :
    saveReturnCodeRow "t1" "R01"
      ⟨"t1", "org", "USD", 1234, "sc", "sa", "dc", "da", "d", "processed", false, none,
        0, 0, none, none, ""⟩ =
      ⟨"t1", "org", "USD", 1234, "sc", "sa", "dc", "da", "d", "processed", false,
        some "R01", 0, 0, none, none, ""⟩ :=
  (SaveReturnCode_write_once ⟨[], []⟩ "t1" "R01").2.2.2 _ rfl rfl rfl

theorem Originate_routing_rejections_witness :
    Originate
      { routingNumber := "", cutoffs := { timezone := "", windows := [] },
        fileConfig := { balanceEntries := false } }
      [] ⟨0, 0⟩ "companyID"
      ⟨"t1", ⟨"USD", 100⟩, ⟨"c1", "a1"⟩, ⟨"c2", "a2"⟩, "", "pending", false, none, none, 0, []⟩
      { customer := { customerID := "", status := "" },
        account := { routingNumber := "987654320" }, accountNumber := "" }
      { customer := { customerID := "", status := "" },
        account := { routingNumber := "987654320" }, accountNumber := "" } =
      .error .endpointRejected :=
  (Originate_routing_rejections _ _ _ _ _ _ _).1 rfl

theorem Originate_debit_check_witness :
    Originate
      { routingNumber := "987654320", cutoffs := { timezone := "", windows := [] },
        fileConfig := { balanceEntries := false } }
      [] ⟨0, 0⟩ "MOOV"
      ⟨"t1", ⟨"USD", 100⟩, ⟨"c1", "a1"⟩, ⟨"c2", "a2"⟩, "", "pending", false, none, none, 0, []⟩
      { customer := { customerID := "", status := "ReceiveOnly" },
        account := { routingNumber := "" }, accountNumber := "" }
      { customer := { customerID := "", status := "" },
        account := { routingNumber := "987654320" }, accountNumber := "" } =
      .error .debitNotAllowed :=
  (Originate_debit_check _ _ _ _ _ _ _).1 rfl (by decide) (by decide)

theorem Originate_balance_entries_witness :
    ∃ f, Originate
      { routingNumber := "987654320", cutoffs := { timezone := "", windows := [] },
        fileConfig := { balanceEntries := true } }
      [] ⟨0, 0⟩ "MOOV"
      ⟨"t1", ⟨"USD", 25⟩, ⟨"c1", "a1"⟩, ⟨"c2", "a2"⟩, "", "pending", false, none, none, 0, []⟩
      { customer := { customerID := "", status := "verified" },
        account := { routingNumber := "123456780" }, accountNumber := "123456" }
      { customer := { customerID := "", status := "" },
        account := { routingNumber := "987654320" }, accountNumber := "654321" } = .ok [f] ∧
      ((∃ e ∈ f.entries, e.isOffset = true) ↔ (true = true ∧ 50 ≤ (25 : Int))) ∧
      ((25 : Int) = 25 →
        f.entries.length = 1 ∧ (∀ e ∈ f.entries, e.isOffset = false) ∧
        (f.entries.map (fun e => e.traceNumber)).length = 1) :=
  Originate_balance_entries _ _ _ _ _ _ _ (by decide) (Or.inr rfl) (fun _ => by decide)

/-- C9: for every `n` in `[0, 35]`, `ACHFilenameSeq` applied to a filename
rendered with sequence number `n` (with or without the `.gpg` suffix)
recovers `n`, the sequence character being the base-36 digit mapping with
`RoundSequenceNumber 0 = "0"` and `RoundSequenceNumber 10 = "A"`. -/
theorem ACHFilenameSeq_roundTrip :
    (∀ n : Nat, n ≤ 35 → ∀ g : Bool,
      ACHFilenameSeq (RenderACHFilename "20210419" "1620" "221475786" n g) = n) ∧
    RoundSequenceNumber 0 = "0" ∧ RoundSequenceNumber 10 = "A" := by
  refine ⟨?_, by decide, by decide⟩
  decide

theorem ACHFilenameSeq_roundTrip_witness :
    ACHFilenameSeq (RenderACHFilename "20210419" "1620" "221475786" 12 true) = 12 :=
  ACHFilenameSeq_roundTrip.1 12 (by decide) true


theorem find_unique {α : Type} {p : α → Bool} {l : List α} {a : α}
    (ha : a ∈ l) (hpa : p a = true)
    (huniq : ∀ x ∈ l, p x = true → x = a) :
    l.find? p = some a := by
  induction l with
  | nil => cases ha
  | cons b t ih =>
    by_cases hb : p b = true
    · have hba : b = a := huniq b (List.mem_cons_self b t) hb
      subst hba
      simp [List.find?_cons, hb]
    · have hb' : p b = false := by revert hb; cases p b <;> simp
      have hat : a ∈ t := by
        rcases List.mem_cons.mp ha with h | h
        · subst h; exact absurd hpa hb
        · exact h
      simp [List.find?_cons, hb']
      exact ih hat (fun x hx hpx => huniq x (List.mem_cons_of_mem _ hx) hpx)

theorem row_eq_of_unique {db : DB} (h : uniqueTransferIDs db) {x y : TransferRow}
    (hx : x ∈ db.transfers) (hy : y ∈ db.transfers)
    (hid : x.transferID = y.transferID) : x = y :=
  List.inj_on_of_nodup_map h hx hy hid

theorem getUserTransfer_visible {db : DB} {tid org : String} {t : Transfer}
    (h : getUserTransfer db tid org = some t) :
    ∃ r ∈ db.transfers, rowMatchesUser tid org r = true ∧
      t.transferID = r.transferID ∧ t.status = r.status ∧
      t.amount.value = r.amountValue ∧ t.created = r.createdAt ∧
      t.returnCode = r.returnCode ∧ r.deletedAt = none := by
  unfold getUserTransfer at h
  split at h
  · cases h
  · rename_i r hfind
    have hmem := List.mem_of_find?_eq_some hfind
    have hmatch := List.find?_some hfind
    have hdel : r.deletedAt = none := by
      have hm := hmatch
      unfold rowMatchesUser at hm
      rw [Bool.and_eq_true, Bool.and_eq_true] at hm
      exact beq_iff_eq.mp hm.2
    split at h
    · cases h
    · injection h with h
      subst h
      exact ⟨r, hmem, hmatch, rfl, rfl, rfl, rfl, rfl, hdel⟩


/-- C2: `LookupTransferFromReturn` returns a transfer only if that
transfer's amount value equals the given amount, it carries the given trace
number, its status is PROCESSED, it is not soft-deleted, and its creation
time lies in the window spanning five calendar days either side of the
return's effective entry date (the bounds built by `startOfDayAndTomorrow`);
the `Option` return type yields at most one transfer, matching `limit 1`. -/
theorem LookupTransferFromReturn_only_matches (db : DB) (amount : Amount)
    (traceNumber : String) (eed : Int) (t : Transfer)
    (huniq : uniqueTransferIDs db)
    (h : LookupTransferFromReturn db amount traceNumber eed = some t) :
    t.amount.value = amount.value ∧
    (t.transferID, traceNumber) ∈ db.traceNumbers ∧
    equalFold t.status PROCESSED = true ∧
    (startOfDayAndTomorrow eed).1 - 5 * 1440 < t.created ∧
    t.created < (startOfDayAndTomorrow eed).2 + 5 * 1440 ∧
    (∃ r ∈ db.transfers, t.transferID = r.transferID ∧ r.deletedAt = none) := by
  unfold LookupTransferFromReturn at h
  dsimp only at h
  split at h
  · cases h
  · rename_i r hfind
    have hmem := List.mem_of_find?_eq_some hfind
    have hmatch := List.find?_some hfind
    simp only [lookupRowMatches, Bool.and_eq_true, beq_iff_eq, decide_eq_true_eq,
      List.any_eq_true] at hmatch
    obtain ⟨⟨⟨⟨hamt, hany⟩, hstat⟩, hlo, hhi⟩, hdel⟩ := hmatch
    obtain ⟨r', hmem', hmatch', hid', hstat', hamt', hcreated', hrc', hdel'⟩ :=
      getUserTransfer_visible h
    have hidr : r'.transferID = r.transferID := by
      unfold rowMatchesUser at hmatch'
      rw [Bool.and_eq_true, Bool.and_eq_true] at hmatch'
      exact beq_iff_eq.mp hmatch'.1.1
    have hrr : r' = r := row_eq_of_unique huniq hmem' hmem hidr
    subst hrr
    obtain ⟨p, hp, hp1, hp2⟩ := hany
    refine ⟨?_, ?_, ?_, ?_, ?_, r', hmem', hid', hdel'⟩
    · rw [hamt', hamt]
    · have : (t.transferID, traceNumber) = p := by
        rcases p with ⟨p1, p2⟩
        simp only [Prod.mk.injEq]
        exact ⟨by rw [hid']; exact hp1.symm, hp2.symm⟩
      rw [this]
      exact hp
    · rw [hstat']; exact hstat
    · rw [hcreated']; exact hlo
    · rw [hcreated']; exact hhi


/-- C3: for every stored, visible transfer, `deleteUserTransfer` succeeds
exactly when the transfer's current status case folds to PENDING, in which
case the row is soft-deleted by setting `deleted_at` and all other rows are
kept; for any other status it returns an error and the database is unchanged
(the transaction rolls back). -/
theorem deleteUserTransfer_pending_iff (db : DB) (org tid : String) (nowTs : Int)
    (r : TransferRow) (huniq : uniqueTransferIDs db) (hr : r ∈ db.transfers)
    (hid : r.transferID = tid) (horg : r.organization = org) (hdel : r.deletedAt = none) :
    ((deleteUserTransfer db org tid nowTs).1 = .ok () ↔ equalFold r.status PENDING = true) ∧
    (equalFold r.status PENDING = true →
      (deleteUserTransfer db org tid nowTs).2.transfers =
        db.transfers.map (deleteUserTransferRow org tid nowTs) ∧
      { r with deletedAt := some nowTs } ∈ (deleteUserTransfer db org tid nowTs).2.transfers ∧
      (∀ x ∈ db.transfers, x.transferID ≠ tid →
        x ∈ (deleteUserTransfer db org tid nowTs).2.transfers)) ∧
    (equalFold r.status PENDING = false →
      (∃ e, (deleteUserTransfer db org tid nowTs).1 = .error e) ∧
      (deleteUserTransfer db org tid nowTs).2 = db) := by
  have hfind : db.transfers.find? (rowMatchesUser tid org) = some r := by
    apply find_unique hr
    · simp [rowMatchesUser, hid, horg, hdel]
    · intro x hx hpx
      unfold rowMatchesUser at hpx
      rw [Bool.and_eq_true, Bool.and_eq_true] at hpx
      have hxid : x.transferID = tid := beq_iff_eq.mp hpx.1.1
      exact row_eq_of_unique huniq hx hr (by rw [hxid, hid])
  have key : deleteUserTransfer db org tid nowTs =
      (if equalFold r.status PENDING then
        (.ok (),
          { db with transfers := db.transfers.map (deleteUserTransferRow org tid nowTs) })
      else (.error "is not in PENDING status", db)) := by
    unfold deleteUserTransfer
    rw [hfind]
  cases hstat : equalFold r.status PENDING with
  | true =>
    rw [key, if_pos hstat]
    refine ⟨by simp [hstat], fun _ => ⟨rfl, ?_, ?_⟩,
      fun hc => absurd hc (by decide)⟩
    · have hrow : deleteUserTransferRow org tid nowTs r = { r with deletedAt := some nowTs } := by
        simp [deleteUserTransferRow, hid, horg, hstat, hdel]
      rw [← hrow]
      exact List.mem_map_of_mem _ hr
    · intro x hx hxid
      have hrow : deleteUserTransferRow org tid nowTs x = x := by
        simp [deleteUserTransferRow, hxid]
      have := List.mem_map_of_mem (deleteUserTransferRow org tid nowTs) hx
      rw [hrow] at this
      exact this
  | false =>
    rw [key, if_neg (by rw [hstat]; exact fun hc => nomatch hc)]
    refine ⟨by simp [hstat], fun hc => absurd hc (by decide),
      fun _ => ⟨⟨_, rfl⟩, rfl⟩⟩

theorem deleteUserTransfer_pending_iff_witness :
    ((deleteUserTransfer
        ⟨[⟨"t1", "org", "USD", 1234, "sc", "sa", "dc", "da", "d", "PENDING", false, none,
          0, 0, none, none, ""⟩], []⟩ "org" "t1" 99).1 = .ok () ↔
      equalFold "PENDING" PENDING = true) := by
  have h := deleteUserTransfer_pending_iff
    ⟨[⟨"t1", "org", "USD", 1234, "sc", "sa", "dc", "da", "d", "PENDING", false, none,
      0, 0, none, none, ""⟩], []⟩ "org" "t1" 99
    ⟨"t1", "org", "USD", 1234, "sc", "sa", "dc", "da", "d", "PENDING", false, none,
      0, 0, none, none, ""⟩ (by unfold uniqueTransferIDs; decide) (by decide) rfl rfl rfl
  exact h.1

theorem LookupTransferFromReturn_only_matches_witness :
    (⟨"t1", ⟨"USD", 1234⟩, ⟨"sc", "sa"⟩, ⟨"dc", "da"⟩, "d", "processed", false, none, none,
        0, ["T123"]⟩ : Transfer).amount.value = 1234 ∧
    ("t1", "T123") ∈ ([("t1", "T123")] : List (String × String)) ∧
    equalFold "processed" PROCESSED = true := by
  have h := LookupTransferFromReturn_only_matches
    ⟨[⟨"t1", "org", "USD", 1234, "sc", "sa", "dc", "da", "d", "processed", false, none,
      0, 0, none, none, ""⟩], [("t1", "T123")]⟩
    ⟨"USD", 1234⟩ "T123" 0
    ⟨"t1", ⟨"USD", 1234⟩, ⟨"sc", "sa"⟩, ⟨"dc", "da"⟩, "d", "processed", false, none, none,
      0, ["T123"]⟩
    (by unfold uniqueTransferIDs; decide) (by decide)
  exact ⟨h.1, h.2.1, h.2.2.1⟩


/-- C10: soft-deleted transfers are invisible and immutable through the
repository: every read (`getTransfers`, `getUserTransfer`, `GetTransfer`,
`LookupTransferFromReturn`) only returns transfers backed by a row with
`deleted_at` null, the row updaters of `UpdateTransferStatus` and
`SaveReturnCode` (and of `deleteUserTransfer`) leave soft-deleted rows
unchanged, and `deleteUserTransfer` on an absent or already soft-deleted
transfer returns success and changes nothing. -/
theorem softDelete_invisible_immutable (db : DB) (org tid status code : String)
    (params : transferFilterParams) (amount : Amount) (tn : String) (eed nowTs : Int) :
    (∀ t ∈ getTransfers db org params,
      ∃ r ∈ db.transfers, t.transferID = r.transferID ∧ r.deletedAt = none) ∧
    (∀ t, getUserTransfer db tid org = some t →
      ∃ r ∈ db.transfers, t.transferID = r.transferID ∧ r.deletedAt = none) ∧
    (∀ t, GetTransfer db tid = some t →
      ∃ r ∈ db.transfers, t.transferID = r.transferID ∧ r.deletedAt = none) ∧
    (∀ t, LookupTransferFromReturn db amount tn eed = some t →
      ∃ r ∈ db.transfers, t.transferID = r.transferID ∧ r.deletedAt = none) ∧
    ((UpdateTransferStatus db tid status).transfers =
      db.transfers.map (updateTransferStatusRow tid status)) ∧
    (∀ r : TransferRow, r.deletedAt.isSome = true →
      updateTransferStatusRow tid status r = r) ∧
    (∀ r : TransferRow, r.deletedAt.isSome = true →
      saveReturnCodeRow tid code r = r) ∧
    (∀ r : TransferRow, r.deletedAt.isSome = true →
      deleteUserTransferRow org tid nowTs r = r) ∧
    ((∀ r ∈ db.transfers, rowMatchesUser tid org r = false) →
      deleteUserTransfer db org tid nowTs = (.ok (), db)) := by
  refine ⟨?_, ?_, ?_, ?_, rfl, ?_, ?_, ?_, ?_⟩
  · intro t ht
    unfold getTransfers at ht
    dsimp only at ht
    obtain ⟨htf, -⟩ := List.mem_filter.mp ht
    obtain ⟨tid', -, hget⟩ := List.mem_filterMap.mp htf
    obtain ⟨r, hmem, -, hid', -, -, -, -, hdel⟩ := getUserTransfer_visible hget
    exact ⟨r, hmem, hid', hdel⟩
  · intro t hget
    obtain ⟨r, hmem, -, hid', -, -, -, -, hdel⟩ := getUserTransfer_visible hget
    exact ⟨r, hmem, hid', hdel⟩
  · intro t hget
    unfold GetTransfer at hget
    split at hget
    · cases hget
    · obtain ⟨r, hmem, -, hid', -, -, -, -, hdel⟩ := getUserTransfer_visible hget
      exact ⟨r, hmem, hid', hdel⟩
  · intro t hget
    unfold LookupTransferFromReturn at hget
    dsimp only at hget
    split at hget
    · cases hget
    · obtain ⟨r, hmem, -, hid', -, -, -, -, hdel⟩ := getUserTransfer_visible hget
      exact ⟨r, hmem, hid', hdel⟩
  · intro r h
    cases hd : r.deletedAt with
    | none => rw [hd] at h; cases h
    | some d => simp [updateTransferStatusRow, hd]
  · intro r h
    cases hd : r.deletedAt with
    | none => rw [hd] at h; cases h
    | some d => simp [saveReturnCodeRow, hd]
  · intro r h
    cases hd : r.deletedAt with
    | none => rw [hd] at h; cases h
    | some d => simp [deleteUserTransferRow, hd]
  · intro hnone
    have hfind : db.transfers.find? (rowMatchesUser tid org) = none := by
      rw [List.find?_eq_none]
      intro x hx
      rw [hnone x hx]
      exact fun hc => nomatch hc
    unfold deleteUserTransfer
    rw [hfind]

theorem softDelete_invisible_immutable_witness :
    updateTransferStatusRow "t1" "processed"
      ⟨"t1", "org", "USD", 1234, "sc", "sa", "dc", "da", "d", "pending", false, none,
        0, 0, none, some 5, ""⟩ =
      ⟨"t1", "org", "USD", 1234, "sc", "sa", "dc", "da", "d", "pending", false, none,
        0, 0, none, some 5, ""⟩ ∧
    deleteUserTransfer ⟨[], []⟩ "org" "missing" 7 = (.ok (), ⟨[], []⟩) := by
  have h := softDelete_invisible_immutable ⟨[], []⟩ "org" "missing" "processed" "R01"
    ⟨0, 0, "", [], 0, 0⟩ ⟨"USD", 0⟩ "T" 0 7
  have h2 := softDelete_invisible_immutable ⟨[], []⟩ "org" "t1" "processed" "R01"
    ⟨0, 0, "", [], 0, 0⟩ ⟨"USD", 0⟩ "T" 0 7
  refine ⟨?_, h.2.2.2.2.2.2.2.2 (fun r hr => nomatch hr)⟩
  exact h2.2.2.2.2.2.1 _ rfl


theorem charListLt_irrefl : ∀ l : List Char, charListLt l l = false := by
  intro l
  induction l with
  | nil => rfl
  | cons a as ih =>
    unfold charListLt
    rw [if_neg (Nat.lt_irrefl _), if_neg (Nat.lt_irrefl _)]
    exact ih

theorem charListLt_asymm : ∀ l1 l2 : List Char,
    charListLt l1 l2 = true → charListLt l2 l1 = false := by
  intro l1
  induction l1 with
  | nil =>
    intro l2 h
    cases l2 with
    | nil => rfl
    | cons b bs => rfl
  | cons a as ih =>
    intro l2 h
    cases l2 with
    | nil => cases h
    | cons b bs =>
      simp only [charListLt] at h ⊢
      split_ifs at h ⊢ <;> first | rfl | omega | exact ih bs h

theorem charListLt_linear : ∀ l1 l2 l3 : List Char, charListLt l1 l3 = true →
    charListLt l1 l2 = true ∨ charListLt l2 l3 = true := by
  intro l1
  induction l1 with
  | nil =>
    intro l2 l3 h
    cases l3 with
    | nil => cases h
    | cons c cs =>
      cases l2 with
      | nil => right; rfl
      | cons b bs => left; rfl
  | cons a as ih =>
    intro l2 l3 h
    cases l3 with
    | nil => cases h
    | cons c cs =>
      cases l2 with
      | nil => right; rfl
      | cons b bs =>
        simp only [charListLt] at h ⊢
        rcases Nat.lt_trichotomy a.toNat b.toNat with hab | hab | hab
        · left
          rw [if_pos hab]
        · split_ifs at h with h1 h2
          · right
            rw [if_pos (by omega : b.toNat < c.toNat)]
          · rcases ih bs cs h with hl | hl
            · left
              rw [if_neg (by omega), if_neg (by omega)]
              exact hl
            · right
              rw [if_neg (by omega), if_neg (by omega)]
              exact hl
        · split_ifs at h with h1 h2
          · right
            rw [if_pos (by omega : b.toNat < c.toNat)]
          · right
            rw [if_pos (by omega : b.toNat < c.toNat)]

theorem charListLt_eq_of_not : ∀ l1 l2 : List Char, charListLt l1 l2 = false →
    charListLt l2 l1 = false → l1 = l2 := by
  intro l1
  induction l1 with
  | nil =>
    intro l2 h1 h2
    cases l2 with
    | nil => rfl
    | cons b bs => cases h1
  | cons a as ih =>
    intro l2 h1 h2
    cases l2 with
    | nil => cases h2
    | cons b bs =>
      simp only [charListLt] at h1 h2
      by_cases hab : a.toNat < b.toNat
      · rw [if_pos hab] at h1; cases h1
      · by_cases hba : b.toNat < a.toNat
        · rw [if_pos hba] at h2; cases h2
        · rw [if_neg hab, if_neg hba] at h1
          rw [if_neg hba, if_neg hab] at h2
          have hv1 : a.val.toNat = a.toNat := rfl
          have hv2 : b.val.toNat = b.toNat := rfl
          have hch : a = b := Char.ext (UInt32.ext (by omega))
          rw [hch, ih bs h1 h2]

theorem goStrLe_refl (a : String) : goStrLe a a = true := by
  unfold goStrLe goStrLt
  rw [charListLt_irrefl]
  rfl

theorem goStrLe_total (a b : String) : (goStrLe a b || goStrLe b a) = true := by
  unfold goStrLe goStrLt
  cases h1 : charListLt b.data a.data
  · rfl
  · simp [charListLt_asymm _ _ h1]

theorem goStrLe_trans (a b c : String) (h1 : goStrLe a b = true) (h2 : goStrLe b c = true) :
    goStrLe a c = true := by
  unfold goStrLe goStrLt at h1 h2 ⊢
  rw [Bool.not_eq_true'] at h1 h2 ⊢
  cases h3 : charListLt c.data a.data
  · rfl
  · rcases charListLt_linear c.data b.data a.data h3 with h | h
    · rw [h] at h2; cases h2
    · rw [h] at h1; cases h1

theorem goStrLe_antisymm (a b : String) (h1 : goStrLe a b = true)
    (h2 : goStrLe b a = true) : a = b := by
  unfold goStrLe goStrLt at h1 h2
  rw [Bool.not_eq_true'] at h1 h2
  have hd := charListLt_eq_of_not a.data b.data h2 h1
  rcases a with ⟨la⟩
  rcases b with ⟨lb⟩
  exact congrArg String.mk hd


theorem getLastD_mem {α : Type} : ∀ (l : List α) (d : α), l ≠ [] → l.getLastD d ∈ l := by
  intro l
  induction l with
  | nil => intro d h; exact absurd rfl h
  | cons a t ih =>
    intro d _
    cases t with
    | nil => simp [List.getLastD]
    | cons b s =>
      rw [List.getLastD_cons]
      exact List.mem_cons_of_mem a (ih a (by simp))

theorem pairwise_getLastD {α : Type} (R : α → α → Prop) :
    ∀ (l : List α), l.Pairwise R → ∀ (d : α), ∀ x ∈ l,
      x = l.getLastD d ∨ R x (l.getLastD d) := by
  intro l
  induction l with
  | nil => intro _ d x hx; cases hx
  | cons a t ih =>
    intro hp d x hx
    rcases List.pairwise_cons.mp hp with ⟨ha, hp2⟩
    cases t with
    | nil =>
      left
      have hxa := List.mem_singleton.mp hx
      subst hxa
      simp [List.getLastD]
    | cons b s =>
      rw [List.getLastD_cons]
      rcases List.mem_cons.mp hx with hxa | hxt
      · subst hxa
        right
        exact ha _ (getLastD_mem (b :: s) x (by simp))
      · exact ih hp2 a x hxt

theorem afterCutoffWindows_eq (cfg : Cutoffs) (when : BankTime) (last : String)
    (hmem : last ∈ cfg.windows) (hmax : ∀ w ∈ cfg.windows, goStrLe w last = true) :
    afterCutoffWindows cfg when = goStrLe last (format1504 when.minute) := by
  have hne : cfg.windows ≠ [] := List.ne_nil_of_mem hmem
  have hperm := List.mergeSort_perm cfg.windows goStrLe
  have hsne : cfg.windows.mergeSort goStrLe ≠ [] := by
    intro hc
    rw [hc] at hperm
    exact hne (List.perm_nil.mp hperm.symm)
  unfold afterCutoffWindows
  rw [if_neg (fun hc => hne (List.isEmpty_iff.mp hc))]
  dsimp only
  rw [if_neg (fun hc => hsne (List.isEmpty_iff.mp hc))]
  have hsorted : List.Pairwise (fun a b => goStrLe a b = true)
      (cfg.windows.mergeSort goStrLe) :=
    List.sorted_mergeSort (fun a b c => goStrLe_trans a b c) goStrLe_total cfg.windows
  have hLmem : (cfg.windows.mergeSort goStrLe).getLastD "" ∈ cfg.windows :=
    hperm.mem_iff.mp (getLastD_mem _ "" hsne)
  have hlast : last ∈ cfg.windows.mergeSort goStrLe := hperm.mem_iff.mpr hmem
  have h1 : goStrLe ((cfg.windows.mergeSort goStrLe).getLastD "") last = true := hmax _ hLmem
  have h2 : goStrLe last ((cfg.windows.mergeSort goStrLe).getLastD "") = true := by
    rcases pairwise_getLastD _ _ hsorted "" last hlast with heq | hR
    · rw [← heq]
      exact goStrLe_refl last
    · exact hR
  rw [goStrLe_antisymm _ _ h1 h2]

theorem digitChar_toNat (k : Nat) (h : k < 10) : (Nat.digitChar k).toNat = 48 + k := by
  interval_cases k <;> rfl

theorem charListLt_pad2 (a b : Nat) (t1 t2 : List Char) (ha : a < 100) (hb : b < 100) :
    charListLt (pad2 a ++ t1) (pad2 b ++ t2) =
      if a < b then true else if b < a then false else charListLt t1 t2 := by
  have h1 := digitChar_toNat (a / 10) (by omega)
  have h2 := digitChar_toNat (a % 10) (by omega)
  have h3 := digitChar_toNat (b / 10) (by omega)
  have h4 := digitChar_toNat (b % 10) (by omega)
  simp only [pad2, List.cons_append, charListLt, h1, h2, h3, h4]
  split_ifs <;> first | rfl | omega

theorem format1504_mono (m1 m2 : Nat) (h12 : m1 ≤ m2) (hm2 : m2 < 1440) :
    goStrLe (format1504 m1) (format1504 m2) = true := by
  unfold goStrLe goStrLt format1504
  rw [Bool.not_eq_true']
  show charListLt (pad2 (m2 / 60) ++ ':' :: pad2 (m2 % 60))
    (pad2 (m1 / 60) ++ ':' :: pad2 (m1 % 60)) = false
  rw [charListLt_pad2 _ _ _ _ (by omega) (by omega)]
  rw [if_neg (by omega : ¬ m2 / 60 < m1 / 60)]
  by_cases hh : m1 / 60 < m2 / 60
  · rw [if_pos hh]
  · rw [if_neg hh]
    simp only [charListLt]
    rw [if_neg (Nat.lt_irrefl _), if_neg (Nat.lt_irrefl _)]
    have h5 := digitChar_toNat (m2 % 60 / 10) (by omega)
    have h6 := digitChar_toNat (m2 % 60 % 10) (by omega)
    have h7 := digitChar_toNat (m1 % 60 / 10) (by omega)
    have h8 := digitChar_toNat (m1 % 60 % 10) (by omega)
    rw [h5, h6, h7, h8]
    split_ifs <;> first | rfl | omega

theorem afterCutoffWindows_mono (cfg : Cutoffs) (d m1 m2 : Nat)
    (h12 : m1 ≤ m2) (hm2 : m2 < 1440)
    (ha : afterCutoffWindows cfg ⟨d, m1⟩ = true) :
    afterCutoffWindows cfg ⟨d, m2⟩ = true := by
  unfold afterCutoffWindows at ha ⊢
  by_cases h1 : cfg.windows.isEmpty = true
  · rw [if_pos h1] at ha; cases ha
  · rw [if_neg h1] at ha ⊢
    dsimp only at ha ⊢
    by_cases h2 : (cfg.windows.mergeSort goStrLe).isEmpty = true
    · rw [if_pos h2] at ha; cases ha
    · rw [if_neg h2] at ha ⊢
      exact goStrLe_trans _ _ _ ha (format1504_mono m1 m2 h12 hm2)

theorem le_nextBankingDayFrom (hol : List Nat) :
    ∀ fuel d, d ≤ nextBankingDayFrom hol fuel d := by
  intro fuel
  induction fuel with
  | zero => intro d; exact Nat.le_refl d
  | succ n ih =>
    intro d
    unfold nextBankingDayFrom
    by_cases h : isBankingDay hol d = true
    · rw [if_pos h]
    · rw [if_neg h]
      exact Nat.le_trans (Nat.le_succ d) (ih (d + 1))

theorem nextBankingDayFrom_le_banking (hol : List Nat) :
    ∀ fuel s b, s ≤ b → isBankingDay hol b = true →
      nextBankingDayFrom hol fuel s ≤ b := by
  intro fuel
  induction fuel with
  | zero => intro s b hsb _; exact hsb
  | succ n ih =>
    intro s b hsb hb
    unfold nextBankingDayFrom
    by_cases h : isBankingDay hol s = true
    · rw [if_pos h]
      exact hsb
    · rw [if_neg h]
      have hne : s ≠ b := fun hc => h (hc ▸ hb)
      exact ih (s + 1) b (by omega) hb

theorem nextBankingDayFrom_mono (hol : List Nat) :
    ∀ fuel d1 d2, d1 ≤ d2 →
      nextBankingDayFrom hol fuel d1 ≤ nextBankingDayFrom hol fuel d2 := by
  intro fuel
  induction fuel with
  | zero => intro d1 d2 h; exact h
  | succ n ih =>
    intro d1 d2 h
    by_cases h1 : isBankingDay hol d1 = true
    · have e1 : nextBankingDayFrom hol (n + 1) d1 = d1 := by
        unfold nextBankingDayFrom; rw [if_pos h1]
      have := le_nextBankingDayFrom hol (n + 1) d2
      rw [e1]
      omega
    · have e1 : nextBankingDayFrom hol (n + 1) d1 = nextBankingDayFrom hol n (d1 + 1) := by
        simp only [nextBankingDayFrom]; rw [if_neg h1]
      rw [e1]
      by_cases h2 : isBankingDay hol d2 = true
      · have e2 : nextBankingDayFrom hol (n + 1) d2 = d2 := by
          unfold nextBankingDayFrom; rw [if_pos h2]
        rw [e2]
        have hne : d1 ≠ d2 := fun hc => h1 (hc ▸ h2)
        exact nextBankingDayFrom_le_banking hol n (d1 + 1) d2 (by omega) h2
      · have e2 : nextBankingDayFrom hol (n + 1) d2 = nextBankingDayFrom hol n (d2 + 1) := by
          simp only [nextBankingDayFrom]; rw [if_neg h2]
        rw [e2]
        exact ih (d1 + 1) (d2 + 1) (by omega)


/-- C1: with `last` the latest configured cutoff window, if the current
`HH:MM` is before `last` then `calculateEffectiveEntryDate` returns today
for a same-day transfer and today plus one banking day otherwise; if the
current `HH:MM` is at or after `last` it returns today plus one banking day
for a same-day transfer and today plus two banking days otherwise — in
particular a same-day transfer evaluated after the last window settles on a
strictly later day, never today. -/
theorem calculateEffectiveEntryDate_cutoff_rule (cfg : ODFI) (hol : List Nat)
    (now : BankTime) (last : String)
    (hmem : last ∈ cfg.cutoffs.windows)
    (hmax : ∀ w ∈ cfg.cutoffs.windows, goStrLe w last = true) :
    (goStrLe last (format1504 now.minute) = false →
      calculateEffectiveEntryDate cfg hol now true = now ∧
      calculateEffectiveEntryDate cfg hol now false = addBankingDay hol 1 now) ∧
    (goStrLe last (format1504 now.minute) = true →
      calculateEffectiveEntryDate cfg hol now true = addBankingDay hol 1 now ∧
      calculateEffectiveEntryDate cfg hol now false = addBankingDay hol 2 now ∧
      now.day < (calculateEffectiveEntryDate cfg hol now true).day) := by
  have hcut := afterCutoffWindows_eq cfg.cutoffs now last hmem hmax
  constructor
  · intro h
    rw [h] at hcut
    simp [calculateEffectiveEntryDate, hcut]
  · intro h
    rw [h] at hcut
    refine ⟨by simp [calculateEffectiveEntryDate, hcut],
      by simp [calculateEffectiveEntryDate, hcut], ?_⟩
    simp only [calculateEffectiveEntryDate, hcut, if_pos, addBankingDay]
    have := le_nextBankingDayFrom hol (bankingFuel hol) (now.day + 1)
    omega

theorem calculateEffectiveEntryDate_cutoff_rule_witness :
    calculateEffectiveEntryDate
      { routingNumber := "987654320",
        cutoffs := { timezone := "America/New_York", windows := ["14:20"] },
        fileConfig := { balanceEntries := false } } [] ⟨0, 900⟩ true =
      addBankingDay [] 1 ⟨0, 900⟩ ∧
    calculateEffectiveEntryDate
      { routingNumber := "987654320",
        cutoffs := { timezone := "America/New_York", windows := ["14:20"] },
        fileConfig := { balanceEntries := false } } [] ⟨0, 900⟩ false =
      addBankingDay [] 2 ⟨0, 900⟩ ∧
    (0 : Nat) < (calculateEffectiveEntryDate
      { routingNumber := "987654320",
        cutoffs := { timezone := "America/New_York", windows := ["14:20"] },
        fileConfig := { balanceEntries := false } } [] ⟨0, 900⟩ true).day :=
  (calculateEffectiveEntryDate_cutoff_rule _ [] ⟨0, 900⟩ "14:20"
    (by decide) (by decide)).2 (by decide)

/-- C8: `calculateEffectiveEntryDate` is monotone in the evaluation time
within a calendar day: for two instants on the same day in the cutoff
timezone, ordered by minute of day, with `sameDay = false` for both, the
effective entry date computed at the earlier instant is at most the one
computed at the later instant. -/
theorem calculateEffectiveEntryDate_monotone (cfg : ODFI) (hol : List Nat)
    (d m1 m2 : Nat) (h12 : m1 ≤ m2) (hm2 : m2 < 1440) :
    (calculateEffectiveEntryDate cfg hol ⟨d, m1⟩ false).day ≤
      (calculateEffectiveEntryDate cfg hol ⟨d, m2⟩ false).day := by
  cases h1 : afterCutoffWindows cfg.cutoffs ⟨d, m1⟩ with
  | false =>
    cases h2 : afterCutoffWindows cfg.cutoffs ⟨d, m2⟩ with
    | false => simp [calculateEffectiveEntryDate, h1, h2, addBankingDay]
    | true =>
      simp [calculateEffectiveEntryDate, h1, h2, addBankingDay]
      exact nextBankingDayFrom_mono hol _ (d + 1) (d + 2) (by omega)
  | true =>
    have h2 : afterCutoffWindows cfg.cutoffs ⟨d, m2⟩ = true :=
      afterCutoffWindows_mono cfg.cutoffs d m1 m2 h12 hm2 h1
    simp [calculateEffectiveEntryDate, h1, h2, addBankingDay]

theorem calculateEffectiveEntryDate_monotone_witness :
    (calculateEffectiveEntryDate
      { routingNumber := "987654320",
        cutoffs := { timezone := "America/New_York", windows := ["14:20"] },
        fileConfig := { balanceEntries := false } } [] ⟨0, 600⟩ false).day ≤
    (calculateEffectiveEntryDate
      { routingNumber := "987654320",
        cutoffs := { timezone := "America/New_York", windows := ["14:20"] },
        fileConfig := { balanceEntries := false } } [] ⟨0, 900⟩ false).day :=
  calculateEffectiveEntryDate_monotone _ [] 0 600 900 (by decide) (by decide)

theorem calculateEffectiveEntryDate_goTestVectors :
    calculateEffectiveEntryDate
      { routingNumber := "", cutoffs := { timezone := "America/New_York", windows := ["14:20"] },
        fileConfig := { balanceEntries := false } } [] ⟨0, 600⟩ false = ⟨1, 600⟩ ∧
    calculateEffectiveEntryDate
      { routingNumber := "", cutoffs := { timezone := "America/New_York", windows := ["14:20"] },
        fileConfig := { balanceEntries := false } } [] ⟨0, 600⟩ true = ⟨0, 600⟩ ∧
    calculateEffectiveEntryDate
      { routingNumber := "", cutoffs := { timezone := "America/New_York", windows := ["14:20"] },
        fileConfig := { balanceEntries := false } } [] ⟨0, 900⟩ false = ⟨2, 900⟩ ∧
    calculateEffectiveEntryDate
      { routingNumber := "", cutoffs := { timezone := "America/New_York", windows := ["14:20"] },
        fileConfig := { balanceEntries := false } } [] ⟨0, 900⟩ true = ⟨1, 900⟩ := by
  have h1 := afterCutoffWindows_eq
    { timezone := "America/New_York", windows := ["14:20"] } ⟨0, 600⟩ "14:20"
    (by decide) (by decide)
  have h2 := afterCutoffWindows_eq
    { timezone := "America/New_York", windows := ["14:20"] } ⟨0, 900⟩ "14:20"
    (by decide) (by decide)
  rw [show goStrLe "14:20" (format1504 (600 : Nat)) = false by decide] at h1
  rw [show goStrLe "14:20" (format1504 (900 : Nat)) = true by decide] at h2
  refine ⟨?_, ?_, ?_, ?_⟩ <;>
    simp [calculateEffectiveEntryDate, h1, h2, addBankingDay, bankingFuel,
      nextBankingDayFrom, isBankingDay, isWeekend]

end Paygate
